import Mathlib

/-!
Verification of the density-scanner core (`scanner.py`) of the tgscren
repository.

The embedding below translates the stateful Python scanner into pure Lean
functions over exact rationals:

* floats become `ℚ` (exact arithmetic stands in for IEEE doubles);
* Python dicts become association lists with insertion-order semantics
  (`lookupKey`, `updateAssoc`, `delKey`);
* the wall clock (`time.time()`, `datetime.now()`) becomes an explicit
  `now` argument;
* the mutable scanner state (`_alert_cooldowns`, `_density_tracker`,
  `_miss_counter`) becomes the `ScannerState` record threaded through the
  operations.
-/

/-- Key of `_alert_cooldowns`: (exchange, symbol, side). -/
abbrev CKey := String × String × String

/-- Key of `_density_tracker` / `_miss_counter`:
(exchange, symbol, side, price_level). -/
abbrev TKey := String × String × String × ℚ

/-- Project a tracker key to its cooldown key, as
`exchange, symbol, side, _ = key` does in `_cleanup_missing_densities`. -/
def ckeyOf (k : TKey) : CKey := (k.1, k.2.1, k.2.2.1)

/-- First-match lookup in an association list (Python `dict[key]` /
`key in dict`). -/
def lookupKey {α β : Type} [DecidableEq α] : List (α × β) → α → Option β
  | [], _ => none
  | kv :: rest, k => if kv.1 = k then some kv.2 else lookupKey rest k

/-- Python `dict[key] = v`: overwrite in place when the key is present,
append at the end otherwise (insertion order is preserved). -/
def updateAssoc {α β : Type} [DecidableEq α] (l : List (α × β)) (k : α) (v : β) :
    List (α × β) :=
  if l.any (fun kv => decide (kv.1 = k)) then
    l.map (fun kv => if kv.1 = k then (k, v) else kv)
  else l ++ [(k, v)]

/-- Python `del dict[key]` (removes every entry with that key; entries are
unique in an actual dict). -/
def delKey {α β : Type} [DecidableEq α] (l : List (α × β)) (k : α) :
    List (α × β) :=
  l.filter (fun kv => decide (kv.1 ≠ k))

/-- Python `int(q)` for a rational: truncation toward zero. -/
def pyInt (q : ℚ) : ℤ := if 0 ≤ q then q.floor else -((-q).floor)

/-- config.py: `ALERT_COOLDOWN_SECONDS = 300`. -/
def ALERT_COOLDOWN_SECONDS : ℚ := 300

/-- config.py: `ALERT_SIZE_CHANGE_THRESHOLD = 0.20`. -/
def ALERT_SIZE_CHANGE_THRESHOLD : ℚ := 20 / 100

/-- config.py: `ALERT_SIZE_SURGE_THRESHOLD = 0.50`. -/
def ALERT_SIZE_SURGE_THRESHOLD : ℚ := 50 / 100

/-- config.py: `ALERT_PRICE_CHANGE_THRESHOLD = 0.005`. -/
def ALERT_PRICE_CHANGE_THRESHOLD : ℚ := 5 / 1000

/-- config.py: `DENSITY_MISS_LIMIT = 3`. -/
def DENSITY_MISS_LIMIT : ℕ := 3

/-- scanner.py `DensityAlert` dataclass.  `timestamp` holds the whole-second
clock reading that `datetime.now().strftime("%Y-%m-%d %H:%M:%S")` formats
(the formatted string determines and is determined by that reading). -/
structure DensityAlert where
  exchange : String
  symbol : String
  side : String
  volume : ℚ
  price : ℚ
  distance_pct : ℚ
  timestamp : ℤ
  lifetime_seconds : ℤ := 0
deriving DecidableEq, Repr

/-- An order-book snapshot: the `bids` and `asks` lists of
(price, amount) levels.  A fetch result whose dict is falsy or lacks one of
the keys is modelled as `none` at the use site. -/
structure Orderbook where
  bids : List (ℚ × ℚ)
  asks : List (ℚ × ℚ)
deriving DecidableEq, Repr

/-- One side's walk in `_compute_densities`.  `isBid = true` is the loop
over `bids` (distance `mid - price`), `isBid = false` the loop over `asks`
(distance `price - mid`); the two loops in the source differ only in that
sign, the side string, and the sign inside `distance_from_mid`.  `vol` and
`price_sum` are the running `bid_volume` / `bid_price_sum` accumulators. -/
def walkSide (isBid : Bool) (exchange symbol : String)
    (mid_price max_distance min_size contract_size : ℚ) (now : ℤ) :
    List (ℚ × ℚ) → ℚ → ℚ → List DensityAlert
  | [], _, _ => []
  | (price, amount) :: rest, vol, price_sum =>
    let distance := if isBid then mid_price - price else price - mid_price
    if max_distance < distance then []
    else
      let quote_volume := price * amount * contract_size
      let vol' := vol + quote_volume
      let price_sum' := price_sum + price * quote_volume
      if min_size ≤ vol' then
        let avg_price := if 0 < vol' then price_sum' / vol' else price
        let distance_from_mid :=
          if isBid then ((mid_price - avg_price) / mid_price) * 100
          else ((avg_price - mid_price) / mid_price) * 100
        [{ exchange := exchange, symbol := symbol,
           side := if isBid then "bid" else "ask",
           volume := vol', price := avg_price,
           distance_pct := distance_from_mid, timestamp := now }]
      else
        walkSide isBid exchange symbol mid_price max_distance min_size
          contract_size now rest vol' price_sum'

/-- scanner.py `_compute_densities`.  `orderbook = none` models a falsy
fetch result or a dict missing the `bids`/`asks` keys; `now` is the clock
reading that `datetime.now()` observes. -/
def compute_densities (exchange symbol : String) (orderbook : Option Orderbook)
    (min_size distance_pct : ℚ) (contract_size : ℚ) (now : ℤ) :
    List DensityAlert :=
  match orderbook with
  | none => []
  | some ob =>
    if ob.bids.isEmpty || ob.asks.isEmpty then []
    else
      let best_bid := (ob.bids.headD (0, 0)).1
      let best_ask := (ob.asks.headD (0, 0)).1
      if best_bid = 0 ∨ best_ask = 0 then []
      else
        let mid_price := (best_bid + best_ask) / 2
        let max_distance := mid_price * (distance_pct / 100)
        walkSide true exchange symbol mid_price max_distance min_size
          contract_size now ob.bids 0 0 ++
        walkSide false exchange symbol mid_price max_distance min_size
          contract_size now ob.asks 0 0

/-- Mutable scanner state: `_alert_cooldowns` maps a `CKey` to
(last_alert_time, last_size, last_price); `_density_tracker` maps a `TKey`
to its first-seen timestamp; `_miss_counter` maps a `TKey` to its miss
count. -/
structure ScannerState where
  alert_cooldowns : List (CKey × (ℚ × ℚ × ℚ))
  density_tracker : List (TKey × ℚ)
  miss_counter : List (TKey × ℕ)
deriving DecidableEq, Repr

/-- The empty initial state built in `DensityScanner.__init__`. -/
def initState : ScannerState := ⟨[], [], []⟩

/-- scanner.py `_should_send_alert`, reading the given cooldown map at
clock reading `now`. -/
def should_send_alert (cooldowns : List (CKey × (ℚ × ℚ × ℚ)))
    (exchange symbol side : String) (size price now : ℚ) : Bool × String :=
  match lookupKey cooldowns (exchange, symbol, side) with
  | none => (true, "first_alert")
  | some (last_alert_time, last_size, last_price) =>
    let time_since_last := now - last_alert_time
    let size_change_pct := if 0 < last_size then |size - last_size| / last_size else 1
    let price_change_pct := if 0 < last_price then |price - last_price| / last_price else 1
    let size_increase_pct := if 0 < last_size then (size - last_size) / last_size else 0
    if ALERT_SIZE_SURGE_THRESHOLD ≤ size_increase_pct then (true, "size_surge")
    else if ALERT_PRICE_CHANGE_THRESHOLD ≤ price_change_pct then (true, "price_change")
    else if ALERT_COOLDOWN_SECONDS ≤ time_since_last then (true, "cooldown_expired")
    else if size_change_pct < ALERT_SIZE_CHANGE_THRESHOLD then (false, "cooldown_active")
    else (false, "cooldown_active")

/-- scanner.py `_set_cooldown`. -/
def set_cooldown (cooldowns : List (CKey × (ℚ × ℚ × ℚ)))
    (exchange symbol side : String) (size price now : ℚ) :
    List (CKey × (ℚ × ℚ × ℚ)) :=
  updateAssoc cooldowns (exchange, symbol, side) (now, size, price)

/-- The fuzzy price test used by `_get_density_lifetime` and
`_mark_density_seen`: relative difference at most 0.1% (a non-positive
tracked price is given difference `1.0`, hence never matches). -/
def withinTol (price tracked_price : ℚ) : Bool :=
  decide ((if 0 < tracked_price then |price - tracked_price| / tracked_price else 1)
    ≤ 1 / 1000)

/-- The linear scan of `_density_tracker` in `_get_density_lifetime`:
first entry with the same exchange/symbol/side whose price is within
0.1%, in insertion order. -/
def findTrack (exchange symbol side : String) (price : ℚ) :
    List (TKey × ℚ) → Option ℚ
  | [] => none
  | (k, first_seen) :: rest =>
    if k.1 = exchange ∧ k.2.1 = symbol ∧ k.2.2.1 = side ∧
        withinTol price k.2.2.2 = true then
      some first_seen
    else findTrack exchange symbol side price rest

/-- scanner.py `_get_density_lifetime`: returns the lifetime in seconds
and the updated state (a new track with miss count 0 is created when no
existing track matches). -/
def get_density_lifetime (st : ScannerState) (exchange symbol side : String)
    (price : ℚ) (now : ℚ) : ℤ × ScannerState :=
  match findTrack exchange symbol side price st.density_tracker with
  | some first_seen => (pyInt (now - first_seen), st)
  | none =>
    (0, { st with
            density_tracker :=
              updateAssoc st.density_tracker (exchange, symbol, side, price) now,
            miss_counter :=
              updateAssoc st.miss_counter (exchange, symbol, side, price) 0 })

/-- scanner.py `_mark_density_seen`: reset the miss counter of the first
matching track (insertion order) to 0. -/
def mark_density_seen (exchange symbol side : String) (price : ℚ) :
    List (TKey × ℕ) → List (TKey × ℕ)
  | [] => []
  | (k, c) :: rest =>
    if k.1 = exchange ∧ k.2.1 = symbol ∧ k.2.2.1 = side ∧
        withinTol price k.2.2.2 = true then
      (k, 0) :: rest
    else (k, c) :: mark_density_seen exchange symbol side price rest

/-- The miss-counter increment at the top of `_scan_all_exchanges` (and of
`_scan_all_exchanges_rest`): every tracked key's count goes up by one. -/
def increment_miss_counters (miss : List (TKey × ℕ)) : List (TKey × ℕ) :=
  miss.map (fun kc => (kc.1, kc.2 + 1))

/-- The keys collected by the first loop of `_cleanup_missing_densities`. -/
def keysToRemove (s : ScannerState) : List TKey :=
  (s.miss_counter.filter (fun kc => decide (DENSITY_MISS_LIMIT ≤ kc.2))).map Prod.fst

/-- scanner.py `_cleanup_missing_densities`: drop every key whose miss
count reached `DENSITY_MISS_LIMIT` from the tracker and the miss counter,
and drop the cooldown record of its (exchange, symbol, side). -/
def cleanup (s : ScannerState) : ScannerState :=
  (keysToRemove s).foldl
    (fun st key =>
      { alert_cooldowns := delKey st.alert_cooldowns (ckeyOf key),
        density_tracker := delKey st.density_tracker key,
        miss_counter := delKey st.miss_counter key })
    s

/-- The per-candidate pipeline inside `_scan_symbol` (alerts enabled):
annotate the lifetime, mark the density seen, run the anti-spam gate, then
apply the per-exchange `min_lifetime` filter; returns the updated state and
the list of alerts handed to `alert_callback` (empty or a singleton). -/
def process_alert (st : ScannerState) (exchange symbol : String)
    (alert : DensityAlert) (min_lifetime : ℤ) (now : ℚ) :
    ScannerState × List DensityAlert :=
  let r := get_density_lifetime st exchange symbol alert.side alert.price now
  let alert' := { alert with lifetime_seconds := r.1 }
  let st2 := { r.2 with
                 miss_counter :=
                   mark_density_seen exchange symbol alert'.side alert'.price
                     r.2.miss_counter }
  let gate := should_send_alert st2.alert_cooldowns exchange symbol alert'.side
                alert'.volume alert'.price now
  if gate.1 then
    if alert'.lifetime_seconds < min_lifetime then (st2, [])
    else
      ({ st2 with
           alert_cooldowns :=
             set_cooldown st2.alert_cooldowns exchange symbol alert'.side
               alert'.volume alert'.price now },
       [alert'])
  else (st2, [])

/-- A raw metadata value as read from market info: a number, or a value on
which `float()` raises. -/
inductive RawVal where
  | num (q : ℚ)
  | bad
deriving DecidableEq, Repr

/-- Python truthiness of an optional raw value (`None`, `0` and `0.0` are
falsy; an unparseable non-empty string is truthy). -/
def pyTruthy : Option RawVal → Bool
  | none => false
  | some (RawVal.num q) => decide (q ≠ 0)
  | some RawVal.bad => true

/-- Python `a or b`. -/
def pyOr (a b : Option RawVal) : Option RawVal := if pyTruthy a then a else b

/-- Python `float(v)`: `none` when the conversion raises. -/
def pyFloat : RawVal → Option ℚ
  | RawVal.num q => some q
  | RawVal.bad => none

/-- The slice of `client.market(symbol)` metadata read by `_scan_symbol`:
the `contract` flag, the unified `contractSize`, and the three
venue-specific fallback fields inside `info`. -/
structure MarketInfo where
  contract : Bool
  contractSize : Option RawVal
  info_multiplier : Option RawVal
  info_contractSize : Option RawVal
  info_lotSize : Option RawVal
deriving DecidableEq, Repr

/-- `cs = market_info.get('contractSize')` with the fallback chain
`info.get('multiplier') or info.get('contractSize') or info.get('lotSize')`
when the primary field is `None`. -/
def readContractSize (m : MarketInfo) : Option RawVal :=
  match m.contractSize with
  | some v => some v
  | none => pyOr (pyOr m.info_multiplier m.info_contractSize) m.info_lotSize

/-- The contract-size resolution block of `_scan_symbol`.  `none` models a
`client.market` call that raised or returned a falsy value (the `except`
handler and the `if market_info` guard both leave the default 1.0); an
unreadable value (`pyFloat` raises) is likewise caught and left at 1.0; a
parsed non-positive value is coerced to 1.0. -/
def resolve_contract_size (mi : Option MarketInfo) : ℚ :=
  match mi with
  | none => 1
  | some m =>
    if m.contract then
      match readContractSize m with
      | none => 1
      | some v =>
        match pyFloat v with
        | none => 1
        | some q => if q ≤ 0 then 1 else q
    else 1

/-- The `_contract_size_cache` step of `_scan_symbol`: a cached key is
reused untouched, otherwise the resolved value is cached.  Returns the
contract size used and the updated cache. -/
def resolve_and_cache (cache : List (String × ℚ)) (key : String)
    (mi : Option MarketInfo) : ℚ × List (String × ℚ) :=
  match lookupKey cache key with
  | some v => (v, cache)
  | none => (resolve_contract_size mi, cache ++ [(key, resolve_contract_size mi)])

/-- Per-level quote-volume contribution `price * amount * contract_size`. -/
def contrib (contract_size : ℚ) (l : ℚ × ℚ) : ℚ := l.1 * l.2 * contract_size

/-- Sum of the contributions of a list of levels. -/
def sumContrib (contract_size : ℚ) (levels : List (ℚ × ℚ)) : ℚ :=
  (levels.map (contrib contract_size)).sum

/-- Distance of a level from the mid price on the given side. -/
def sideDist (isBid : Bool) (mid_price : ℚ) (l : ℚ × ℚ) : ℚ :=
  if isBid then mid_price - l.1 else l.1 - mid_price

/-- Side label of one side. -/
def sideStr (isBid : Bool) : String := if isBid then "bid" else "ask"

/-- The levels of one side of a snapshot. -/
def sideLevels (isBid : Bool) (ob : Orderbook) : List (ℚ × ℚ) :=
  if isBid then ob.bids else ob.asks

/-- An alert with the clock-derived field cleared, to compare the
input-determined fields of two runs. -/
def stripTime (a : DensityAlert) : DensityAlert := { a with timestamp := 0 }

/-! ### Association-list lemmas -/

lemma mem_delKey {α β : Type} [DecidableEq α] {l : List (α × β)} {k : α}
    {x : α × β} : x ∈ delKey l k ↔ x ∈ l ∧ x.1 ≠ k := by
  simp [delKey, List.mem_filter]

/-- Repeated deletion, the shape produced by the cleanup fold. -/
def removeKeys {α β : Type} [DecidableEq α] (l : List (α × β)) (ks : List α) :
    List (α × β) :=
  ks.foldl delKey l

lemma removeKeys_nil {α β : Type} [DecidableEq α] (l : List (α × β)) :
    removeKeys l [] = l := rfl

lemma removeKeys_cons {α β : Type} [DecidableEq α] (l : List (α × β))
    (k : α) (ks : List α) :
    removeKeys l (k :: ks) = removeKeys (delKey l k) ks := rfl

lemma mem_removeKeys {α β : Type} [DecidableEq α] {ks : List α} :
    ∀ {l : List (α × β)} {x : α × β},
      x ∈ removeKeys l ks ↔ x ∈ l ∧ x.1 ∉ ks := by
  induction ks with
  | nil => intro l x; simp [removeKeys_nil]
  | cons k ks ih =>
    intro l x
    rw [removeKeys_cons, ih, mem_delKey]
    simp only [List.mem_cons]
    tauto

lemma lookupKey_none_of_any_false {α β : Type} [DecidableEq α]
    {l : List (α × β)} {k : α}
    (h : l.any (fun kv => decide (kv.1 = k)) = false) :
    lookupKey l k = none := by
  induction l with
  | nil => rfl
  | cons a rest ih =>
    rw [List.any_cons, Bool.or_eq_false_iff] at h
    have ha : ¬ (a.1 = k) := by simpa using h.1
    simp only [lookupKey, if_neg ha]
    exact ih h.2

lemma lookupKey_append_single {α β : Type} [DecidableEq α]
    {l : List (α × β)} {k : α} (v : β) (h : lookupKey l k = none) :
    lookupKey (l ++ [(k, v)]) k = some v := by
  induction l with
  | nil => simp [lookupKey]
  | cons a rest ih =>
    by_cases ha : a.1 = k
    · simp [lookupKey, ha] at h
    · simp only [lookupKey, if_neg ha] at h
      simp only [List.cons_append, lookupKey, if_neg ha]
      exact ih h

lemma lookupKey_map_overwrite {α β : Type} [DecidableEq α]
    {l : List (α × β)} {k : α} (v : β)
    (h : l.any (fun kv => decide (kv.1 = k)) = true) :
    lookupKey (l.map (fun kv => if kv.1 = k then (k, v) else kv)) k = some v := by
  induction l with
  | nil => cases h
  | cons a rest ih =>
    by_cases ha : a.1 = k
    · simp [List.map_cons, if_pos ha, lookupKey]
    · rw [List.any_cons, Bool.or_eq_true] at h
      have h2 : rest.any (fun kv => decide (kv.1 = k)) = true := by
        rcases h with h | h
        · exact absurd (of_decide_eq_true h) ha
        · exact h
      simp only [List.map_cons, if_neg ha, lookupKey, if_neg ha]
      exact ih h2

lemma lookupKey_updateAssoc {α β : Type} [DecidableEq α]
    (l : List (α × β)) (k : α) (v : β) :
    lookupKey (updateAssoc l k v) k = some v := by
  unfold updateAssoc
  by_cases h : l.any (fun kv => decide (kv.1 = k)) = true
  · rw [if_pos h]
    exact lookupKey_map_overwrite v h
  · rw [if_neg h]
    rw [Bool.not_eq_true] at h
    exact lookupKey_append_single v (lookupKey_none_of_any_false h)

/-! ### Anti-spam gate (C2) -/

lemma should_send_alert_some (cds : List (CKey × (ℚ × ℚ × ℚ)))
    (e s sd : String) (size price now t0 ls lp : ℚ)
    (h : lookupKey cds (e, s, sd) = some (t0, ls, lp))
    (hls : 0 < ls) (hlp : 0 < lp) :
    should_send_alert cds e s sd size price now =
      (if 1/2 ≤ (size - ls) / ls then (true, "size_surge")
       else if 1/200 ≤ |price - lp| / lp then (true, "price_change")
       else if 300 ≤ now - t0 then (true, "cooldown_expired")
       else (false, "cooldown_active")) := by
  simp only [should_send_alert, h, hls, hlp, if_true,
    ALERT_SIZE_SURGE_THRESHOLD, ALERT_PRICE_CHANGE_THRESHOLD,
    ALERT_COOLDOWN_SECONDS, ALERT_SIZE_CHANGE_THRESHOLD, ite_self]
  norm_num

lemma should_send_alert_record_100_10 (size price now : ℚ) :
    should_send_alert [(("e", "s", "bid"), (0, 100, 10))] "e" "s" "bid"
      size price now =
      (if 1/2 ≤ (size - 100) / 100 then (true, "size_surge")
       else if 1/200 ≤ |price - 10| / 10 then (true, "price_change")
       else if 300 ≤ now - 0 then (true, "cooldown_expired")
       else (false, "cooldown_active")) := by
  have hl : lookupKey [(("e", "s", "bid"), ((0:ℚ), (100:ℚ), (10:ℚ)))]
      ("e", "s", "bid") = some (0, 100, 10) := by simp [lookupKey]
  exact should_send_alert_some _ "e" "s" "bid" size price now 0 100 10 hl
    (by norm_num) (by norm_num)

/-- C2: `_should_send_alert` applies the anti-spam decision order
first-match-wins — signed relative size increase ≥ 50 % sends as
"size_surge", else absolute relative price change ≥ 0.5 % sends as
"price_change", else elapsed ≥ 300 s sends as "cooldown_expired", else it
suppresses as "cooldown_active"; a key with no record sends as
"first_alert"; and against the record (size = 100, price = 10, age 60 s)
the four concrete candidates behave exactly as specified. -/
theorem should_send_alert_decision_order :
    (∀ (cds : List (CKey × (ℚ × ℚ × ℚ))) (e s sd : String) (size price now : ℚ),
      lookupKey cds (e, s, sd) = none →
      should_send_alert cds e s sd size price now = (true, "first_alert")) ∧
    (∀ (cds : List (CKey × (ℚ × ℚ × ℚ))) (e s sd : String)
       (size price now t0 ls lp : ℚ),
      lookupKey cds (e, s, sd) = some (t0, ls, lp) → 0 < ls → 0 < lp →
      ((1/2 ≤ (size - ls) / ls →
          should_send_alert cds e s sd size price now = (true, "size_surge")) ∧
       ((size - ls) / ls < 1/2 → 1/200 ≤ |price - lp| / lp →
          should_send_alert cds e s sd size price now = (true, "price_change")) ∧
       ((size - ls) / ls < 1/2 → |price - lp| / lp < 1/200 → 300 ≤ now - t0 →
          should_send_alert cds e s sd size price now = (true, "cooldown_expired")) ∧
       ((size - ls) / ls < 1/2 → |price - lp| / lp < 1/200 → now - t0 < 300 →
          should_send_alert cds e s sd size price now = (false, "cooldown_active")))) ∧
    should_send_alert [(("e", "s", "bid"), (0, 100, 10))] "e" "s" "bid"
      160 10 60 = (true, "size_surge") ∧
    should_send_alert [(("e", "s", "bid"), (0, 100, 10))] "e" "s" "bid"
      100 (1006/100) 60 = (true, "price_change") ∧
    should_send_alert [(("e", "s", "bid"), (0, 100, 10))] "e" "s" "bid"
      105 (1001/100) 60 = (false, "cooldown_active") ∧
    should_send_alert [(("e", "s", "bid"), (0, 100, 10))] "e" "s" "bid"
      105 (1001/100) 301 = (true, "cooldown_expired") := by
  refine ⟨?_, ?_,
    by rw [should_send_alert_record_100_10]; norm_num [abs_of_nonneg],
    by rw [should_send_alert_record_100_10]; norm_num [abs_of_nonneg],
    by rw [should_send_alert_record_100_10]; norm_num [abs_of_nonneg],
    by rw [should_send_alert_record_100_10]; norm_num [abs_of_nonneg]⟩
  · intro cds e s sd size price now h
    simp [should_send_alert, h]
  · intro cds e s sd size price now t0 ls lp h hls hlp
    rw [should_send_alert_some cds e s sd size price now t0 ls lp h hls hlp]
    refine ⟨?_, ?_, ?_, ?_⟩
    · intro h1
      rw [if_pos h1]
    · intro h1 h2
      rw [if_neg (not_le.mpr h1), if_pos h2]
    · intro h1 h2 h3
      rw [if_neg (not_le.mpr h1), if_neg (not_le.mpr h2), if_pos h3]
    · intro h1 h2 h3
      rw [if_neg (not_le.mpr h1), if_neg (not_le.mpr h2), if_neg (not_le.mpr h3)]

/-- Witness for C2: against the record (time 0, size 100, price 10), a
candidate of size 160 at time 60 is sent as a size surge. -/
theorem should_send_alert_decision_order_witness :
    lookupKey [(("e", "s", "bid"), ((0 : ℚ), (100 : ℚ), (10 : ℚ)))]
      ("e", "s", "bid") = some (0, 100, 10) ∧
    should_send_alert [(("e", "s", "bid"), (0, 100, 10))] "e" "s" "bid"
      160 10 60 = (true, "size_surge") :=
  ⟨by simp [lookupKey],
   (should_send_alert_decision_order.2.1 [(("e", "s", "bid"), (0, 100, 10))]
      "e" "s" "bid" 160 10 60 0 100 10 (by simp [lookupKey]) (by norm_num)
      (by norm_num)).1 (by norm_num)⟩

/-! ### Density calculator on concrete snapshots (C4, C5) -/

/-- Counterexample for C4: on bids [[50000,10],[49900,15],[49800,20]] with
threshold 1,000,000, distance 3 % and contract size 1.0 (best ask 50000),
the bid alert's volume is exactly 1,248,500 — which is not 1,244,500 and
not within 0.1 % of it (the claimed figure contradicts the claim's own sum
500,000 + 748,500). -/
theorem compute_densities_example_volume_ne_claimed :
    (compute_densities "e" "s"
        (some ⟨[(50000, 10), (49900, 15), (49800, 20)], [(50000, 10)]⟩)
        1000000 3 1 0).map (fun a => a.volume) = [1248500] ∧
    (1248500 : ℚ) ≠ 1244500 ∧
    ¬ (|(1248500 : ℚ) - 1244500| ≤ 1244500 * (1/1000)) := by
  refine ⟨by norm_num [compute_densities, walkSide], by norm_num, by
    rw [abs_of_nonneg (by norm_num)]; norm_num⟩

/-- C4 (amended): the same snapshot yields exactly one alert, a bid alert,
whose volume is exactly 500,000 + 748,500 = 1,248,500 — the sum of the
first two independent level contributions, with the third level excluded. -/
theorem compute_densities_example_volume_exact :
    (compute_densities "e" "s"
        (some ⟨[(50000, 10), (49900, 15), (49800, 20)], [(50000, 10)]⟩)
        1000000 3 1 0).map (fun a => (a.side, a.volume)) =
      [("bid", 500000 + 748500)] ∧
    (500000 + 748500 : ℚ) = 50000 * 10 * 1 + 49900 * 15 * 1 := by
  refine ⟨by norm_num [compute_densities, walkSide], by norm_num⟩

/-- Counterexample for C5: a snapshot whose best bid is negative (hence
non-positive) is not rejected — the guard in `_compute_densities` compares
against zero only — and an ask alert is emitted. -/
theorem compute_densities_negative_best_bid_alerts :
    ((-2 : ℚ) ≤ 0) ∧
    compute_densities "e" "s" (some ⟨[(-2, 1)], [(4, 100000)]⟩)
      100 400 1 0 ≠ [] := by
  refine ⟨by norm_num, by norm_num [compute_densities, walkSide]⟩

/-- C5 (amended): `_compute_densities` returns no alert whenever either
side is empty or the best bid or best ask price equals zero (a negative
best price is not guarded against). -/
theorem compute_densities_guard_empty_or_zero
    (exchange symbol : String) (ob : Orderbook) (ms d cs : ℚ) (now : ℤ)
    (h : ob.bids = [] ∨ ob.asks = [] ∨ (ob.bids.headD (0, 0)).1 = 0 ∨
      (ob.asks.headD (0, 0)).1 = 0) :
    compute_densities exchange symbol (some ob) ms d cs now = [] := by
  cases hb : ob.bids.isEmpty || ob.asks.isEmpty with
  | true => simp [compute_densities, hb]
  | false =>
    have hor : (ob.bids.headD (0, 0)).1 = 0 ∨ (ob.asks.headD (0, 0)).1 = 0 := by
      rw [Bool.or_eq_false_iff] at hb
      rcases h with h | h | h | h
      · exact absurd hb.1 (by simp [h])
      · exact absurd hb.2 (by simp [h])
      · exact Or.inl h
      · exact Or.inr h
    simp only [compute_densities, hb, Bool.false_eq_true, if_false, if_pos hor]

/-- Witness for C5 (amended): a snapshot with an empty bid side yields no
alerts. -/
theorem compute_densities_guard_empty_or_zero_witness :
    compute_densities "e" "s" (some ⟨[], [(1, 1)]⟩) 5 3 1 0 = [] :=
  compute_densities_guard_empty_or_zero "e" "s" ⟨[], [(1, 1)]⟩ 5 3 1 0
    (Or.inl rfl)

/-! ### Determinism of the density calculator (C3) -/

lemma walkSide_map_stripTime (isBid : Bool) (e s : String)
    (mid cap ms cs : ℚ) (t1 t2 : ℤ) :
    ∀ (levels : List (ℚ × ℚ)) (vol psum : ℚ),
      (walkSide isBid e s mid cap ms cs t1 levels vol psum).map stripTime =
      (walkSide isBid e s mid cap ms cs t2 levels vol psum).map stripTime := by
  intro levels
  induction levels with
  | nil => intro vol psum; rfl
  | cons l rest ih =>
    intro vol psum
    obtain ⟨price, amount⟩ := l
    by_cases hd : cap < (if isBid then mid - price else price - mid)
    · simp only [walkSide, if_pos hd, List.map_nil]
    · by_cases hv : ms ≤ vol + price * amount * cs
      · simp only [walkSide, if_neg hd, if_pos hv, List.map_cons, List.map_nil,
          stripTime]
      · simp only [walkSide, if_neg hd, if_neg hv]
        exact ih _ _

/-- Counterexample for C3: the `timestamp` field of an alert is taken from
the wall clock (`datetime.now()`), not from the snapshot or the
parameters, so two invocations on identical inputs at different clock
readings do not return identical alert values. -/
theorem compute_densities_timestamp_not_input :
    compute_densities "e" "s" (some ⟨[(100, 20)], [(100, 1)]⟩) 1000 3 1 0 ≠
    compute_densities "e" "s" (some ⟨[(100, 20)], [(100, 1)]⟩) 1000 3 1 60 := by
  norm_num [compute_densities, walkSide]

/-- C3 (amended): `_compute_densities` is deterministic and free of hidden
state given its inputs and the clock reading it observes — for any fixed
snapshot, threshold, distance percentage and contract size, every alert
field except the clock-derived `timestamp` is identical across
invocations (and the whole alert is identical when the clock reading is
the same, the function being pure). -/
theorem compute_densities_deterministic_mod_timestamp
    (exchange symbol : String) (ob : Option Orderbook) (ms d cs : ℚ)
    (t1 t2 : ℤ) :
    (compute_densities exchange symbol ob ms d cs t1).map stripTime =
    (compute_densities exchange symbol ob ms d cs t2).map stripTime := by
  match ob with
  | none => rfl
  | some ob =>
    by_cases hb : (ob.bids.isEmpty || ob.asks.isEmpty) = true
    · simp [compute_densities, hb]
    · rw [Bool.not_eq_true] at hb
      by_cases hz : (ob.bids.headD (0, 0)).1 = 0 ∨ (ob.asks.headD (0, 0)).1 = 0
      · simp only [compute_densities, hb, Bool.false_eq_true, if_false,
          if_pos hz, List.map_nil]
      · simp only [compute_densities, hb, Bool.false_eq_true, if_false,
          if_neg hz, List.map_append]
        rw [walkSide_map_stripTime true exchange symbol _ _ ms cs t1 t2,
          walkSide_map_stripTime false exchange symbol _ _ ms cs t1 t2]

/-! ### Contract-size resolution (C9) -/

lemma resolve_contract_size_pos (mi : Option MarketInfo) :
    0 < resolve_contract_size mi := by
  match mi with
  | none => norm_num [resolve_contract_size]
  | some m =>
    simp only [resolve_contract_size]
    by_cases hc : m.contract
    · rw [if_pos hc]
      rcases hr : readContractSize m with _ | v
      · norm_num
      · cases v with
        | num q =>
          simp only [pyFloat]
          by_cases hq : q ≤ 0
          · rw [if_pos hq]; norm_num
          · rw [if_neg hq]; exact lt_of_not_le hq
        | bad => simp [pyFloat]
    · rw [if_neg hc]; norm_num

/-- C9: every value the contract-size cache step stores is strictly
positive — a missing or falsy market lookup, a spot market, a missing,
unreadable, or non-positive declared contract size all resolve to 1.0,
and a declared positive value resolves to itself; positivity of all cache
entries is preserved by the caching step. -/
theorem contract_size_positive_spec :
    (∀ mi : Option MarketInfo, 0 < resolve_contract_size mi) ∧
    resolve_contract_size none = 1 ∧
    (∀ m : MarketInfo, m.contract = false → resolve_contract_size (some m) = 1) ∧
    (∀ m : MarketInfo, m.contract = true → readContractSize m = none →
       resolve_contract_size (some m) = 1) ∧
    (∀ m : MarketInfo, m.contract = true → readContractSize m = some RawVal.bad →
       resolve_contract_size (some m) = 1) ∧
    (∀ (m : MarketInfo) (q : ℚ), m.contract = true →
       readContractSize m = some (RawVal.num q) → q ≤ 0 →
       resolve_contract_size (some m) = 1) ∧
    (∀ (m : MarketInfo) (q : ℚ), m.contract = true →
       readContractSize m = some (RawVal.num q) → 0 < q →
       resolve_contract_size (some m) = q) ∧
    (∀ (cache : List (String × ℚ)) (key : String) (mi : Option MarketInfo),
       (∀ kv ∈ cache, 0 < kv.2) →
       ∀ kv ∈ (resolve_and_cache cache key mi).2, 0 < kv.2) := by
  refine ⟨resolve_contract_size_pos, rfl, ?_, ?_, ?_, ?_, ?_, ?_⟩
  · intro m hm
    simp [resolve_contract_size, hm]
  · intro m hm hr
    simp [resolve_contract_size, hm, hr]
  · intro m hm hr
    simp [resolve_contract_size, hm, hr, pyFloat]
  · intro m q hm hr hq
    simp [resolve_contract_size, hm, hr, pyFloat, hq]
  · intro m q hm hr hq
    simp [resolve_contract_size, hm, hr, pyFloat, not_le.mpr hq]
  · intro cache key mi hpos kv hkv
    unfold resolve_and_cache at hkv
    rcases hl : lookupKey cache key with _ | v
    · rw [hl] at hkv
      simp only [List.mem_append, List.mem_singleton] at hkv
      rcases hkv with hkv | hkv
      · exact hpos kv hkv
      · rw [hkv]
        exact resolve_contract_size_pos mi
    · rw [hl] at hkv
      exact hpos kv hkv

/-- Witness for C9: starting from a one-entry positive cache, the entry
the caching step appends for an unreadable market lookup is positive. -/
theorem contract_size_positive_spec_witness :
    ("k", resolve_contract_size none) ∈
      (resolve_and_cache [("a", 2)] "k" none).2 ∧
    0 < (("k", resolve_contract_size none) : String × ℚ).2 :=
  ⟨by simp [resolve_and_cache, lookupKey, resolve_contract_size],
   contract_size_positive_spec.2.2.2.2.2.2.2 [("a", 2)] "k" none
     (by intro kv hkv; rcases List.mem_singleton.mp hkv with h; rw [h]; norm_num)
     ("k", resolve_contract_size none)
     (by simp [resolve_and_cache, lookupKey, resolve_contract_size])⟩

/-! ### Miss counters and cleanup (C7, C10) -/

lemma cleanup_components (s : ScannerState) :
    cleanup s =
      ⟨removeKeys s.alert_cooldowns ((keysToRemove s).map ckeyOf),
       removeKeys s.density_tracker (keysToRemove s),
       removeKeys s.miss_counter (keysToRemove s)⟩ := by
  unfold cleanup
  generalize keysToRemove s = ks
  induction ks generalizing s with
  | nil => rfl
  | cons k ks ih =>
    rw [List.foldl_cons, List.map_cons, removeKeys_cons, removeKeys_cons,
      removeKeys_cons]
    exact ih ⟨delKey s.alert_cooldowns (ckeyOf k), delKey s.density_tracker k,
      delKey s.miss_counter k⟩

lemma mem_keysToRemove {s : ScannerState} {k : TKey} :
    k ∈ keysToRemove s ↔ ∃ c, (k, c) ∈ s.miss_counter ∧ DENSITY_MISS_LIMIT ≤ c := by
  unfold keysToRemove
  simp only [List.mem_map, List.mem_filter, decide_eq_true_eq]
  constructor
  · rintro ⟨⟨k2, c⟩, ⟨hmem, hc⟩, rfl⟩
    exact ⟨c, hmem, hc⟩
  · rintro ⟨c, hmem, hc⟩
    exact ⟨(k, c), ⟨hmem, hc⟩, rfl⟩

lemma lookupKey_map_incr (miss : List (TKey × ℕ)) (k : TKey) :
    lookupKey (increment_miss_counters miss) k =
      (lookupKey miss k).map (fun c => c + 1) := by
  induction miss with
  | nil => rfl
  | cons a rest ih =>
    by_cases ha : a.1 = k
    · simp [increment_miss_counters, lookupKey, ha]
    · simp only [increment_miss_counters, List.map_cons, lookupKey, if_neg ha]
      exact ih

/-- C7: before a scan pass every track's miss counter is incremented by
exactly one, and cleanup deletes every key whose miss counter reached
`DENSITY_MISS_LIMIT` (3) from the tracker and the miss-counter map
together with the cooldown record of its (exchange, symbol, side); no
entry with a count ≥ 3 survives cleanup. -/
theorem miss_increment_and_cleanup_spec :
    (∀ (miss : List (TKey × ℕ)) (k : TKey),
      lookupKey (increment_miss_counters miss) k =
        (lookupKey miss k).map (fun c => c + 1)) ∧
    (∀ (s : ScannerState) (k : TKey) (c : ℕ),
      (k, c) ∈ (cleanup s).miss_counter → c < DENSITY_MISS_LIMIT) ∧
    (∀ (s : ScannerState) (k : TKey) (c : ℕ),
      (k, c) ∈ s.miss_counter → DENSITY_MISS_LIMIT ≤ c →
      (∀ fs : ℚ, (k, fs) ∉ (cleanup s).density_tracker) ∧
      (∀ c2 : ℕ, (k, c2) ∉ (cleanup s).miss_counter) ∧
      (∀ rec : ℚ × ℚ × ℚ, (ckeyOf k, rec) ∉ (cleanup s).alert_cooldowns)) := by
  refine ⟨lookupKey_map_incr, ?_, ?_⟩
  · intro s k c hmem
    rw [cleanup_components] at hmem
    rw [mem_removeKeys] at hmem
    by_contra hc
    exact hmem.2 (mem_keysToRemove.mpr ⟨c, hmem.1, le_of_not_lt hc⟩)
  · intro s k c hmem hc
    have hk : k ∈ keysToRemove s := mem_keysToRemove.mpr ⟨c, hmem, hc⟩
    refine ⟨?_, ?_, ?_⟩
    · intro fs hmem2
      rw [cleanup_components, mem_removeKeys] at hmem2
      exact hmem2.2 hk
    · intro c2 hmem2
      rw [cleanup_components, mem_removeKeys] at hmem2
      exact hmem2.2 hk
    · intro r hmem2
      rw [cleanup_components, mem_removeKeys] at hmem2
      exact hmem2.2 (List.mem_map.mpr ⟨k, hk, rfl⟩)

/-- Witness for C7: in a two-track state where the track
("e","s","bid",100) has missed 3 passes, cleanup removes it, its miss
counter, and the cooldown record of ("e","s","bid"); and incrementing
turns its count 2 into 3. -/
theorem miss_increment_and_cleanup_spec_witness :
    lookupKey (increment_miss_counters [(("e", "s", "bid", 100), 2)])
        ("e", "s", "bid", 100) = some 3 ∧
    ((("e", "s", "bid", 100), (10 : ℚ)) ∉
      (cleanup ⟨[(("e", "s", "bid"), (50, 1000, 100))],
                [(("e", "s", "bid", 100), 10), (("e", "s", "bid", 105), 20)],
                [(("e", "s", "bid", 100), 3), (("e", "s", "bid", 105), 1)]⟩
        ).density_tracker) ∧
    ((("e", "s", "bid", 100), 3) ∉
      (cleanup ⟨[(("e", "s", "bid"), (50, 1000, 100))],
                [(("e", "s", "bid", 100), 10), (("e", "s", "bid", 105), 20)],
                [(("e", "s", "bid", 100), 3), (("e", "s", "bid", 105), 1)]⟩
        ).miss_counter) ∧
    ((("e", "s", "bid"), ((50 : ℚ), (1000 : ℚ), (100 : ℚ))) ∉
      (cleanup ⟨[(("e", "s", "bid"), (50, 1000, 100))],
                [(("e", "s", "bid", 100), 10), (("e", "s", "bid", 105), 20)],
                [(("e", "s", "bid", 100), 3), (("e", "s", "bid", 105), 1)]⟩
        ).alert_cooldowns) := by
  have h := miss_increment_and_cleanup_spec.2.2
    ⟨[(("e", "s", "bid"), (50, 1000, 100))],
     [(("e", "s", "bid", 100), 10), (("e", "s", "bid", 105), 20)],
     [(("e", "s", "bid", 100), 3), (("e", "s", "bid", 105), 1)]⟩
    ("e", "s", "bid", 100) 3 (by decide) (by decide)
  exact ⟨miss_increment_and_cleanup_spec.1 [(("e", "s", "bid", 100), 2)]
      ("e", "s", "bid", 100),
    h.1 10, h.2.1 3, h.2.2 (50, 1000, 100)⟩

/-- C10: cooldown records carry no price component while density tracks
do; evicting the missed track ("e","s","bid",100) deletes the single
cooldown record of ("e","s","bid") even though the live track
("e","s","bid",105) survives, whose next candidate the gate then treats
as a "first_alert". -/
theorem cleanup_shared_cooldown_scenario :
    cleanup ⟨[(("e", "s", "bid"), (50, 1000, 100))],
             [(("e", "s", "bid", 100), 10), (("e", "s", "bid", 105), 20)],
             [(("e", "s", "bid", 100), 3), (("e", "s", "bid", 105), 1)]⟩ =
      ⟨[], [(("e", "s", "bid", 105), 20)], [(("e", "s", "bid", 105), 1)]⟩ ∧
    should_send_alert
      (cleanup ⟨[(("e", "s", "bid"), (50, 1000, 100))],
                [(("e", "s", "bid", 100), 10), (("e", "s", "bid", 105), 20)],
                [(("e", "s", "bid", 100), 3), (("e", "s", "bid", 105), 1)]⟩
        ).alert_cooldowns
      "e" "s" "bid" 1000 105 60 = (true, "first_alert") := by
  constructor
  · decide
  · have h : (cleanup ⟨[(("e", "s", "bid"), (50, 1000, 100))],
        [(("e", "s", "bid", 100), 10), (("e", "s", "bid", 105), 20)],
        [(("e", "s", "bid", 100), 3), (("e", "s", "bid", 105), 1)]⟩
          ).alert_cooldowns = [] := by decide
    rw [h]
    rfl

/-! ### Lifetime tracker (C6) -/

lemma findTrack_none_iff (e s sd : String) (p : ℚ) (l : List (TKey × ℚ)) :
    findTrack e s sd p l = none ↔
      ∀ (k : TKey) (fs : ℚ), ((k, fs) : TKey × ℚ) ∈ l →
        ¬(k.1 = e ∧ k.2.1 = s ∧ k.2.2.1 = sd ∧ withinTol p k.2.2.2 = true) := by
  induction l with
  | nil => simp [findTrack]
  | cons a rest ih =>
    obtain ⟨k, fs⟩ := a
    by_cases hc : k.1 = e ∧ k.2.1 = s ∧ k.2.2.1 = sd ∧ withinTol p k.2.2.2 = true
    · simp only [findTrack, if_pos hc]
      constructor
      · intro h; cases h
      · intro h; exact absurd hc (h k fs (List.mem_cons_self _ _))
    · simp only [findTrack, if_neg hc, ih]
      constructor
      · intro h k2 fs2 hmem
        rcases List.mem_cons.mp hmem with h2 | h2
        · simp only [Prod.mk.injEq] at h2
          rw [h2.1]
          exact hc
        · exact h k2 fs2 h2
      · intro h k2 fs2 hmem
        exact h k2 fs2 (List.mem_cons_of_mem _ hmem)

lemma findTrack_some_mem (e s sd : String) (p : ℚ) :
    ∀ (l : List (TKey × ℚ)) (fs : ℚ), findTrack e s sd p l = some fs →
      ∃ k : TKey, ((k, fs) : TKey × ℚ) ∈ l ∧ k.1 = e ∧ k.2.1 = s ∧
        k.2.2.1 = sd ∧ withinTol p k.2.2.2 = true := by
  intro l
  induction l with
  | nil => intro fs h; cases h
  | cons a rest ih =>
    intro fs h
    obtain ⟨k, fs0⟩ := a
    by_cases hc : k.1 = e ∧ k.2.1 = s ∧ k.2.2.1 = sd ∧ withinTol p k.2.2.2 = true
    · rw [findTrack, if_pos hc] at h
      injection h with h2
      rw [← h2]
      exact ⟨k, List.mem_cons_self _ _, hc⟩
    · rw [findTrack, if_neg hc] at h
      obtain ⟨k2, hmem, hc2⟩ := ih fs h
      exact ⟨k2, List.mem_cons_of_mem _ hmem, hc2⟩

/-- C6: `_get_density_lifetime` — when no existing track of the same
(exchange, symbol, side) has a stored price within 0.1 % of the given
price, it returns lifetime 0 and creates a track (first-seen `now`) with
miss counter 0, leaving the cooldowns alone; when a matching track
exists, it returns the elapsed time since that track's first-seen
timestamp and leaves the state unchanged; and in the concrete scenario a
track at price 100 created at time 0 yields lifetime 45 when observed at
price 100.05 at time 45, while an observation at price 100.2 (more than
0.1 % away) creates a second independent track with lifetime 0. -/
theorem get_density_lifetime_spec :
    (∀ (st : ScannerState) (e s sd : String) (p now : ℚ),
      (∀ (k : TKey) (fs : ℚ), ((k, fs) : TKey × ℚ) ∈ st.density_tracker →
        ¬(k.1 = e ∧ k.2.1 = s ∧ k.2.2.1 = sd ∧ withinTol p k.2.2.2 = true)) →
      (get_density_lifetime st e s sd p now).1 = 0 ∧
      lookupKey (get_density_lifetime st e s sd p now).2.density_tracker
        (e, s, sd, p) = some now ∧
      lookupKey (get_density_lifetime st e s sd p now).2.miss_counter
        (e, s, sd, p) = some 0 ∧
      (get_density_lifetime st e s sd p now).2.alert_cooldowns =
        st.alert_cooldowns) ∧
    (∀ (st : ScannerState) (e s sd : String) (p now : ℚ),
      (∃ (k : TKey) (fs : ℚ), ((k, fs) : TKey × ℚ) ∈ st.density_tracker ∧
        k.1 = e ∧ k.2.1 = s ∧ k.2.2.1 = sd ∧ withinTol p k.2.2.2 = true) →
      (get_density_lifetime st e s sd p now).2 = st ∧
      ∃ (k : TKey) (fs : ℚ), ((k, fs) : TKey × ℚ) ∈ st.density_tracker ∧
        k.1 = e ∧ k.2.1 = s ∧ k.2.2.1 = sd ∧ withinTol p k.2.2.2 = true ∧
        (get_density_lifetime st e s sd p now).1 = pyInt (now - fs)) ∧
    get_density_lifetime initState "e" "s" "bid" 100 0 =
      (0, ⟨[], [(("e", "s", "bid", 100), 0)], [(("e", "s", "bid", 100), 0)]⟩) ∧
    get_density_lifetime
        ⟨[], [(("e", "s", "bid", 100), 0)], [(("e", "s", "bid", 100), 0)]⟩
        "e" "s" "bid" (10005/100) 45 =
      (45, ⟨[], [(("e", "s", "bid", 100), 0)], [(("e", "s", "bid", 100), 0)]⟩) ∧
    get_density_lifetime
        ⟨[], [(("e", "s", "bid", 100), 0)], [(("e", "s", "bid", 100), 0)]⟩
        "e" "s" "bid" (1002/10) 45 =
      (0, ⟨[], [(("e", "s", "bid", 100), 0), (("e", "s", "bid", (1002/10 : ℚ)), 45)],
          [(("e", "s", "bid", 100), 0), (("e", "s", "bid", (1002/10 : ℚ)), 0)]⟩) := by
  refine ⟨?_, ?_,
    by norm_num [get_density_lifetime, findTrack, initState, updateAssoc],
    by norm_num [get_density_lifetime, findTrack, withinTol, abs_of_nonneg,
      pyInt, Rat.floor_def'],
    by norm_num [get_density_lifetime, findTrack, withinTol, abs_of_nonneg,
      updateAssoc]⟩
  · intro st e s sd p now h
    have hft : findTrack e s sd p st.density_tracker = none :=
      (findTrack_none_iff e s sd p st.density_tracker).mpr h
    have key : get_density_lifetime st e s sd p now =
        (0, { st with
                density_tracker := updateAssoc st.density_tracker (e, s, sd, p) now,
                miss_counter := updateAssoc st.miss_counter (e, s, sd, p) 0 }) := by
      simp only [get_density_lifetime, hft]
    rw [key]
    exact ⟨rfl, lookupKey_updateAssoc _ _ _, lookupKey_updateAssoc _ _ _, rfl⟩
  · intro st e s sd p now hex
    rcases hft : findTrack e s sd p st.density_tracker with _ | fs
    · exfalso
      obtain ⟨k, fs, hmem, hc⟩ := hex
      exact (findTrack_none_iff e s sd p st.density_tracker).mp hft k fs hmem hc
    · obtain ⟨k, hmem, hc1, hc2, hc3, hc4⟩ :=
        findTrack_some_mem e s sd p st.density_tracker fs hft
      have key : get_density_lifetime st e s sd p now = (pyInt (now - fs), st) := by
        simp only [get_density_lifetime, hft]
      rw [key]
      exact ⟨rfl, k, fs, hmem, hc1, hc2, hc3, hc4, rfl⟩

/-- Witness for C6: observing a fresh density on the empty initial state
returns lifetime 0 and creates its track with first-seen timestamp 5. -/
theorem get_density_lifetime_spec_witness :
    (get_density_lifetime initState "e" "s" "bid" 100 5).1 = 0 ∧
    lookupKey (get_density_lifetime initState "e" "s" "bid" 100 5
        ).2.density_tracker ("e", "s", "bid", 100) = some 5 ∧
    lookupKey (get_density_lifetime initState "e" "s" "bid" 100 5
        ).2.miss_counter ("e", "s", "bid", 100) = some 0 := by
  have h := get_density_lifetime_spec.1 initState "e" "s" "bid" 100 5
    (by intro k fs hmem; simp [initState] at hmem)
  exact ⟨h.1, h.2.1, h.2.2.1⟩

/-! ### Minimum-lifetime gate (C8) -/

lemma get_density_lifetime_cooldowns (st : ScannerState) (e s sd : String)
    (p now : ℚ) :
    (get_density_lifetime st e s sd p now).2.alert_cooldowns =
      st.alert_cooldowns := by
  unfold get_density_lifetime
  rcases h : findTrack e s sd p st.density_tracker with _ | fs <;> rfl

/-- C8: a candidate that the anti-spam gate would send but whose annotated
lifetime is strictly below the exchange's configured minimum lifetime is
suppressed — `_scan_symbol` forwards nothing to the alert callback — and
the cooldown record for its (exchange, symbol, side) is left exactly as it
was (neither created nor overwritten). -/
theorem min_lifetime_suppression_frame
    (st : ScannerState) (e s : String) (alert : DensityAlert)
    (min_lifetime : ℤ) (now : ℚ)
    (hsend : (should_send_alert st.alert_cooldowns e s alert.side alert.volume
      alert.price now).1 = true)
    (hlt : (get_density_lifetime st e s alert.side alert.price now).1 <
      min_lifetime) :
    (process_alert st e s alert min_lifetime now).2 = [] ∧
    (process_alert st e s alert min_lifetime now).1.alert_cooldowns =
      st.alert_cooldowns := by
  have hcd := get_density_lifetime_cooldowns st e s alert.side alert.price now
  simp only [process_alert, hcd, hsend, if_true, hlt, if_pos hlt]
  exact ⟨trivial, trivial⟩

/-- Witness for C8: on the empty initial state the gate sends
("first_alert"), the fresh density's lifetime 0 is below the configured
minimum 5, and the candidate is suppressed with the cooldown map left
empty. -/
theorem min_lifetime_suppression_frame_witness :
    (should_send_alert initState.alert_cooldowns "e" "s" "bid" 100 10 0).1
      = true ∧
    (get_density_lifetime initState "e" "s" "bid" 10 0).1 < 5 ∧
    (process_alert initState "e" "s" ⟨"e", "s", "bid", 100, 10, 0, 0, 0⟩
      5 0).2 = [] ∧
    (process_alert initState "e" "s" ⟨"e", "s", "bid", 100, 10, 0, 0, 0⟩
      5 0).1.alert_cooldowns = initState.alert_cooldowns := by
  have h := min_lifetime_suppression_frame initState "e" "s"
    ⟨"e", "s", "bid", 100, 10, 0, 0, 0⟩ 5 0 (by rfl)
    (by norm_num [get_density_lifetime, findTrack, initState])
  exact ⟨by rfl, by norm_num [get_density_lifetime, findTrack, initState],
    h.1, h.2⟩

/-! ### Threshold reaching (C1) -/

lemma sumContrib_cons (cs : ℚ) (x : ℚ × ℚ) (l : List (ℚ × ℚ)) :
    sumContrib cs (x :: l) = contrib cs x + sumContrib cs l := by
  simp [sumContrib]

lemma walkSide_side (isBid : Bool) (e s : String) (mid cap ms cs : ℚ)
    (now : ℤ) :
    ∀ (levels : List (ℚ × ℚ)) (vol psum : ℚ) (a : DensityAlert),
      a ∈ walkSide isBid e s mid cap ms cs now levels vol psum →
      a.side = sideStr isBid := by
  intro levels
  induction levels with
  | nil => intro vol psum a ha; cases ha
  | cons l rest ih =>
    intro vol psum a ha
    obtain ⟨price, amount⟩ := l
    by_cases hd : cap < (if isBid then mid - price else price - mid)
    · rw [walkSide, if_pos hd] at ha
      cases ha
    · by_cases hv : ms ≤ vol + price * amount * cs
      · rw [walkSide, if_neg hd] at ha
        simp only [if_pos hv, List.mem_singleton] at ha
        rw [ha]
        rfl
      · rw [walkSide, if_neg hd] at ha
        simp only [if_neg hv] at ha
        exact ih _ _ a ha

lemma walkSide_reaches (isBid : Bool) (e s : String) (mid cap ms cs : ℚ)
    (now : ℤ) :
    ∀ (levels : List (ℚ × ℚ)) (vol psum : ℚ), vol < ms →
    ∀ j : ℕ, j < levels.length →
    (∀ x ∈ levels.take (j + 1), sideDist isBid mid x ≤ cap) →
    ms ≤ vol + sumContrib cs (levels.take (j + 1)) →
    ∃ k : ℕ, k ≤ j ∧
      (walkSide isBid e s mid cap ms cs now levels vol psum).map
        (fun a => (a.side, a.volume)) =
        [(sideStr isBid, vol + sumContrib cs (levels.take (k + 1)))] ∧
      ms ≤ vol + sumContrib cs (levels.take (k + 1)) ∧
      vol + sumContrib cs (levels.take (k + 1)) ≤
        ms + contrib cs (levels.getD k (0, 0)) := by
  intro levels
  induction levels with
  | nil => intro vol psum hvol j hj; exact absurd hj (Nat.not_lt_zero j)
  | cons l rest ih =>
    intro vol psum hvol j hj hdist hsum
    obtain ⟨price, amount⟩ := l
    have hd0 : sideDist isBid mid (price, amount) ≤ cap := by
      apply hdist
      rw [List.take_succ_cons]
      exact List.mem_cons_self _ _
    have hnb : ¬ cap < (if isBid then mid - price else price - mid) := by
      apply not_lt.mpr
      simpa [sideDist] using hd0
    by_cases hv : ms ≤ vol + price * amount * cs
    · refine ⟨0, Nat.zero_le j, ?_, ?_, ?_⟩
      · simp only [walkSide, if_neg hnb, if_pos hv, List.map_cons, List.map_nil,
          List.take_succ_cons, List.take_zero, sumContrib_cons, contrib,
          sumContrib, List.map_nil, List.sum_nil, sideStr]
        norm_num
      · simpa [List.take_succ_cons, sumContrib_cons, contrib, sumContrib]
          using hv
      · have hvle : vol ≤ ms := le_of_lt hvol
        simp only [List.take_succ_cons, List.take_zero, sumContrib, contrib,
          List.map_cons, List.map_nil, List.sum_cons, List.sum_nil,
          List.getD_cons_zero]
        linarith
    · have hvol' : vol + price * amount * cs < ms := lt_of_not_le hv
      cases j with
      | zero =>
        exfalso
        apply hv
        simpa [List.take_succ_cons, sumContrib_cons, contrib, sumContrib]
          using hsum
      | succ j' =>
        have hj' : j' < rest.length := Nat.lt_of_succ_lt_succ hj
        have hdist' : ∀ x ∈ rest.take (j' + 1), sideDist isBid mid x ≤ cap := by
          intro x hx
          apply hdist
          rw [List.take_succ_cons]
          exact List.mem_cons_of_mem _ hx
        have hsum' : ms ≤ (vol + price * amount * cs) +
            sumContrib cs (rest.take (j' + 1)) := by
          rw [List.take_succ_cons, sumContrib_cons, contrib] at hsum
          linarith
        obtain ⟨k, hk, heq, hge, hle⟩ :=
          ih (vol + price * amount * cs)
            (psum + price * (price * amount * cs)) hvol' j' hj' hdist' hsum'
        have hstep : walkSide isBid e s mid cap ms cs now
            ((price, amount) :: rest) vol psum =
            walkSide isBid e s mid cap ms cs now rest
              (vol + price * amount * cs)
              (psum + price * (price * amount * cs)) := by
          simp only [walkSide, if_neg hnb, if_neg hv]
        refine ⟨k + 1, Nat.succ_le_succ hk, ?_, ?_, ?_⟩
        · rw [hstep, heq, List.take_succ_cons, sumContrib_cons, contrib]
          norm_num
          ring
        · rw [List.take_succ_cons, sumContrib_cons, contrib]
          linarith
        · rw [List.take_succ_cons, sumContrib_cons, contrib,
            List.getD_cons_succ]
          linarith

lemma mem_take_of_le {α : Type} {l : List α} {k j : ℕ} (hkj : k ≤ j)
    {x : α} (hx : x ∈ l.take (k + 1)) : x ∈ l.take (j + 1) := by
  have h2 : (l.take (j + 1)).take (k + 1) = l.take (k + 1) := by
    rw [List.take_take, min_eq_left (Nat.succ_le_succ hkj)]
  rw [← h2] at hx
  exact List.take_subset _ _ hx

/-- C1: whenever cumulative quote volume (price × quantity ×
contract_size), walked from the best level outward on one side, reaches
the `min_size` threshold at some level j with every level up to j within
the distance cap mid × (distance_pct / 100), `_compute_densities` emits
exactly one alert for that side; its volume is the sum of the
contributions of the included prefix (all within the cap, so no level
beyond the cap is included), is ≥ the threshold, and is ≤ the threshold
plus the contribution of the single level that crossed it. -/
theorem compute_densities_threshold_reached
    (exchange symbol : String) (ob : Orderbook) (ms d cs : ℚ) (now : ℤ)
    (isBid : Bool)
    (hbne : ob.bids ≠ []) (hane : ob.asks ≠ [])
    (hbb : (ob.bids.headD (0, 0)).1 ≠ 0) (hba : (ob.asks.headD (0, 0)).1 ≠ 0)
    (hms : 0 < ms) (j : ℕ) (hj : j < (sideLevels isBid ob).length)
    (hdist : ∀ x ∈ (sideLevels isBid ob).take (j + 1),
      sideDist isBid (((ob.bids.headD (0, 0)).1 + (ob.asks.headD (0, 0)).1) / 2)
          x ≤
        ((ob.bids.headD (0, 0)).1 + (ob.asks.headD (0, 0)).1) / 2 * (d / 100))
    (hsum : ms ≤ sumContrib cs ((sideLevels isBid ob).take (j + 1))) :
    ∃ k : ℕ, k ≤ j ∧
      ((compute_densities exchange symbol (some ob) ms d cs now).filter
          (fun a => decide (a.side = sideStr isBid))).map
        (fun a => (a.side, a.volume)) =
        [(sideStr isBid, sumContrib cs ((sideLevels isBid ob).take (k + 1)))] ∧
      (∀ x ∈ (sideLevels isBid ob).take (k + 1),
        sideDist isBid
            (((ob.bids.headD (0, 0)).1 + (ob.asks.headD (0, 0)).1) / 2) x ≤
          ((ob.bids.headD (0, 0)).1 + (ob.asks.headD (0, 0)).1) / 2 *
            (d / 100)) ∧
      ms ≤ sumContrib cs ((sideLevels isBid ob).take (k + 1)) ∧
      sumContrib cs ((sideLevels isBid ob).take (k + 1)) ≤
        ms + contrib cs ((sideLevels isBid ob).getD k (0, 0)) := by
  have hbe : (ob.bids.isEmpty || ob.asks.isEmpty) = false := by
    simp [List.isEmpty_iff, hbne, hane]
  have hz : ¬ ((ob.bids.headD (0, 0)).1 = 0 ∨ (ob.asks.headD (0, 0)).1 = 0) := by
    push_neg
    exact ⟨hbb, hba⟩
  have hkey : compute_densities exchange symbol (some ob) ms d cs now =
      walkSide true exchange symbol
        (((ob.bids.headD (0, 0)).1 + (ob.asks.headD (0, 0)).1) / 2)
        (((ob.bids.headD (0, 0)).1 + (ob.asks.headD (0, 0)).1) / 2 * (d / 100))
        ms cs now ob.bids 0 0 ++
      walkSide false exchange symbol
        (((ob.bids.headD (0, 0)).1 + (ob.asks.headD (0, 0)).1) / 2)
        (((ob.bids.headD (0, 0)).1 + (ob.asks.headD (0, 0)).1) / 2 * (d / 100))
        ms cs now ob.asks 0 0 := by
    simp only [compute_densities, hbe, Bool.false_eq_true, if_false, if_neg hz]
  obtain ⟨k, hk, heq, hge, hle⟩ := walkSide_reaches isBid exchange symbol
    (((ob.bids.headD (0, 0)).1 + (ob.asks.headD (0, 0)).1) / 2)
    (((ob.bids.headD (0, 0)).1 + (ob.asks.headD (0, 0)).1) / 2 * (d / 100))
    ms cs now (sideLevels isBid ob) 0 0 hms j hj hdist
    (by rw [zero_add]; exact hsum)
  rw [zero_add] at heq hge hle
  refine ⟨k, hk, ?_, ?_, hge, hle⟩
  · rw [hkey, List.filter_append]
    cases isBid with
    | true =>
      have hf1 : List.filter (fun a => decide (a.side = sideStr true))
          (walkSide true exchange symbol
            (((ob.bids.headD (0, 0)).1 + (ob.asks.headD (0, 0)).1) / 2)
            (((ob.bids.headD (0, 0)).1 + (ob.asks.headD (0, 0)).1) / 2 *
              (d / 100)) ms cs now ob.bids 0 0) =
          walkSide true exchange symbol
            (((ob.bids.headD (0, 0)).1 + (ob.asks.headD (0, 0)).1) / 2)
            (((ob.bids.headD (0, 0)).1 + (ob.asks.headD (0, 0)).1) / 2 *
              (d / 100)) ms cs now ob.bids 0 0 := by
        rw [List.filter_eq_self]
        intro a ha
        rw [walkSide_side true exchange symbol _ _ ms cs now ob.bids 0 0 a ha]
        simp
      have hf2 : List.filter (fun a => decide (a.side = sideStr true))
          (walkSide false exchange symbol
            (((ob.bids.headD (0, 0)).1 + (ob.asks.headD (0, 0)).1) / 2)
            (((ob.bids.headD (0, 0)).1 + (ob.asks.headD (0, 0)).1) / 2 *
              (d / 100)) ms cs now ob.asks 0 0) = [] := by
        rw [List.filter_eq_nil_iff]
        intro a ha
        rw [walkSide_side false exchange symbol _ _ ms cs now ob.asks 0 0 a ha]
        simp [sideStr]
      rw [hf1, hf2, List.append_nil]
      exact heq
    | false =>
      have hf1 : List.filter (fun a => decide (a.side = sideStr false))
          (walkSide true exchange symbol
            (((ob.bids.headD (0, 0)).1 + (ob.asks.headD (0, 0)).1) / 2)
            (((ob.bids.headD (0, 0)).1 + (ob.asks.headD (0, 0)).1) / 2 *
              (d / 100)) ms cs now ob.bids 0 0) = [] := by
        rw [List.filter_eq_nil_iff]
        intro a ha
        rw [walkSide_side true exchange symbol _ _ ms cs now ob.bids 0 0 a ha]
        simp [sideStr]
      have hf2 : List.filter (fun a => decide (a.side = sideStr false))
          (walkSide false exchange symbol
            (((ob.bids.headD (0, 0)).1 + (ob.asks.headD (0, 0)).1) / 2)
            (((ob.bids.headD (0, 0)).1 + (ob.asks.headD (0, 0)).1) / 2 *
              (d / 100)) ms cs now ob.asks 0 0) =
          walkSide false exchange symbol
            (((ob.bids.headD (0, 0)).1 + (ob.asks.headD (0, 0)).1) / 2)
            (((ob.bids.headD (0, 0)).1 + (ob.asks.headD (0, 0)).1) / 2 *
              (d / 100)) ms cs now ob.asks 0 0 := by
        rw [List.filter_eq_self]
        intro a ha
        rw [walkSide_side false exchange symbol _ _ ms cs now ob.asks 0 0 a ha]
        simp
      rw [hf1, hf2, List.nil_append]
      exact heq
  · intro x hx
    exact hdist x (mem_take_of_le hk hx)

/-- Witness for C1: on the snapshot with bids [(100, 20)] and asks
[(100, 1)] (mid 100, cap 3), threshold 1000 is reached at the first bid
level (contribution 2000), so the calculator emits exactly one bid alert
of volume 2000 within the stated bounds. -/
theorem compute_densities_threshold_reached_witness :
    ∃ k : ℕ, k ≤ 0 ∧
      ((compute_densities "e" "s" (some ⟨[(100, 20)], [(100, 1)]⟩)
          1000 3 1 0).filter
          (fun a => decide (a.side = sideStr true))).map
        (fun a => (a.side, a.volume)) =
        [(sideStr true,
          sumContrib 1 ((sideLevels true ⟨[(100, 20)], [(100, 1)]⟩).take
            (k + 1)))] ∧
      (∀ x ∈ (sideLevels true ⟨[(100, 20)], [(100, 1)]⟩).take (k + 1),
        sideDist true
            ((((⟨[(100, 20)], [(100, 1)]⟩ : Orderbook).bids.headD (0, 0)).1 +
              ((⟨[(100, 20)], [(100, 1)]⟩ : Orderbook).asks.headD (0, 0)).1) /
              2) x ≤
          (((⟨[(100, 20)], [(100, 1)]⟩ : Orderbook).bids.headD (0, 0)).1 +
            ((⟨[(100, 20)], [(100, 1)]⟩ : Orderbook).asks.headD (0, 0)).1) /
            2 * (3 / 100)) ∧
      1000 ≤ sumContrib 1
        ((sideLevels true ⟨[(100, 20)], [(100, 1)]⟩).take (k + 1)) ∧
      sumContrib 1 ((sideLevels true ⟨[(100, 20)], [(100, 1)]⟩).take (k + 1)) ≤
        1000 + contrib 1
          ((sideLevels true ⟨[(100, 20)], [(100, 1)]⟩).getD k (0, 0)) :=
  compute_densities_threshold_reached "e" "s" ⟨[(100, 20)], [(100, 1)]⟩
    1000 3 1 0 true (by simp) (by simp) (by norm_num) (by norm_num)
    (by norm_num) 0 (by simp [sideLevels])
    (by
      intro x hx
      simp [sideLevels] at hx
      subst hx
      norm_num [sideDist])
    (by norm_num [sideLevels, sumContrib, contrib])
